import Mathlib

/-!
Verification of the result-chain library (a TypeScript result/error-handling
utility) against its natural-language specification.  The development shallowly
embeds the runtime behaviour of the library: JavaScript values are modelled by
the inductive `Val` (a JSON-like tree), error objects by `EVal`, results by
`ChainRes`.  Chain operations (`map`, `mapErr`, `validate`, `mapAsync`), the
error utilities (`enrichErrorContext` in both of its source variants), the
masking and key-case utilities and `retry` are translated function by function
from the TypeScript source.  Thrown JavaScript exceptions are modelled with
`Except`: a call that throws is `.error thrown`, a call that returns normally is
`.ok result`.

Conventions of the embedding:
- an optional field of a result object (`data?`, `error?`) is `none` when it is
  absent / `undefined` in JavaScript; the canonical representation never uses
  `some Val.vundefined` there;
- a property whose value is `undefined` inside an object literal is represented
  by the entry value `Val.vundefined`;
- object literals are association lists in property order with distinct keys;
  spread-merge and repeated assignment are replayed by `objAssign` /
  `objFromEntries` exactly as JavaScript does (an existing key is updated in
  place, a new key is appended).
-/

/-- A JavaScript value as far as this library manipulates data: `undefined`,
`null`, booleans, (integer) numbers, strings, arrays and plain objects. -/
inductive Val where
  | vundefined : Val
  | vnull : Val
  | vbool : Bool → Val
  | vnum : Int → Val
  | vstr : String → Val
  | varr : List Val → Val
  | vobj : List (String × Val) → Val
deriving Repr

/-- The closed kind enumeration of `DataError` (src/src/errors/data-error.ts). -/
inductive DataErrorKind where
  | not_found | invalid | query | connection | unexpected
deriving DecidableEq, Repr

/-- The closed kind enumeration of `ServiceError`
(src/src/errors/service-error.ts). -/
inductive ServiceErrorKind where
  | validation | not_found | auth | unexpected | network
deriving DecidableEq, Repr

/-- A JavaScript error value as stored in the `error` field of a result or in a
`source` field: a `DataError` instance, a `ServiceError` instance, a plain
`Error` instance (with its `name` and `message`), or a thrown non-`Error`
value. -/
inductive EVal where
  | dataE : DataErrorKind → String → Option (List (String × Val)) → Option EVal → EVal
  | svcE : ServiceErrorKind → String → Option (List (String × Val)) → Option EVal → EVal
  | plainE : String → String → EVal
  | rawV : Val → EVal
deriving Repr

mutual

/-- Decidable equality of values (the automatic deriver does not handle the
nested list occurrences). -/
def decEqVal : (a b : Val) → Decidable (a = b)
  | .vundefined, .vundefined => .isTrue rfl
  | .vnull, .vnull => .isTrue rfl
  | .vbool x, .vbool y =>
      if h : x = y then .isTrue (h ▸ rfl)
      else .isFalse (fun hh => h (by cases hh; rfl))
  | .vnum x, .vnum y =>
      if h : x = y then .isTrue (h ▸ rfl)
      else .isFalse (fun hh => h (by cases hh; rfl))
  | .vstr x, .vstr y =>
      if h : x = y then .isTrue (h ▸ rfl)
      else .isFalse (fun hh => h (by cases hh; rfl))
  | .varr x, .varr y =>
      match decEqValList x y with
      | .isTrue h => .isTrue (h ▸ rfl)
      | .isFalse h => .isFalse (fun hh => h (by cases hh; rfl))
  | .vobj x, .vobj y =>
      match decEqValPairs x y with
      | .isTrue h => .isTrue (h ▸ rfl)
      | .isFalse h => .isFalse (fun hh => h (by cases hh; rfl))
  | .vundefined, .vnull | .vundefined, .vbool _ | .vundefined, .vnum _ | .vundefined, .vstr _
  | .vundefined, .varr _ | .vundefined, .vobj _ => .isFalse (fun h => by cases h)
  | .vnull, .vundefined | .vnull, .vbool _ | .vnull, .vnum _ | .vnull, .vstr _
  | .vnull, .varr _ | .vnull, .vobj _ => .isFalse (fun h => by cases h)
  | .vbool _, .vundefined | .vbool _, .vnull | .vbool _, .vnum _ | .vbool _, .vstr _
  | .vbool _, .varr _ | .vbool _, .vobj _ => .isFalse (fun h => by cases h)
  | .vnum _, .vundefined | .vnum _, .vnull | .vnum _, .vbool _ | .vnum _, .vstr _
  | .vnum _, .varr _ | .vnum _, .vobj _ => .isFalse (fun h => by cases h)
  | .vstr _, .vundefined | .vstr _, .vnull | .vstr _, .vbool _ | .vstr _, .vnum _
  | .vstr _, .varr _ | .vstr _, .vobj _ => .isFalse (fun h => by cases h)
  | .varr _, .vundefined | .varr _, .vnull | .varr _, .vbool _ | .varr _, .vnum _
  | .varr _, .vstr _ | .varr _, .vobj _ => .isFalse (fun h => by cases h)
  | .vobj _, .vundefined | .vobj _, .vnull | .vobj _, .vbool _ | .vobj _, .vnum _
  | .vobj _, .vstr _ | .vobj _, .varr _ => .isFalse (fun h => by cases h)

/-- Decidable equality of value lists. -/
def decEqValList : (a b : List Val) → Decidable (a = b)
  | [], [] => .isTrue rfl
  | [], _ :: _ => .isFalse (fun h => by cases h)
  | _ :: _, [] => .isFalse (fun h => by cases h)
  | x :: xs, y :: ys =>
      match decEqVal x y with
      | .isTrue h1 =>
        match decEqValList xs ys with
        | .isTrue h2 => .isTrue (by rw [h1, h2])
        | .isFalse h2 => .isFalse (fun hh => h2 (by cases hh; rfl))
      | .isFalse h1 => .isFalse (fun hh => h1 (by cases hh; rfl))

/-- Decidable equality of association lists of values. -/
def decEqValPairs : (a b : List (String × Val)) → Decidable (a = b)
  | [], [] => .isTrue rfl
  | [], _ :: _ => .isFalse (fun h => by cases h)
  | _ :: _, [] => .isFalse (fun h => by cases h)
  | (k1, v1) :: xs, (k2, v2) :: ys =>
      if hk : k1 = k2 then
        match decEqVal v1 v2 with
        | .isTrue h1 =>
          match decEqValPairs xs ys with
          | .isTrue h2 => .isTrue (by rw [hk, h1, h2])
          | .isFalse h2 => .isFalse (fun hh => h2 (by cases hh; rfl))
        | .isFalse h1 => .isFalse (fun hh => h1 (by cases hh; rfl))
      else .isFalse (fun hh => hk (by cases hh; rfl))

end

instance : DecidableEq Val := decEqVal

mutual

/-- Decidable equality of error values (manual because of the nested
`Option` occurrence in the `source` field). -/
def decEqEVal : (a b : EVal) → Decidable (a = b)
  | .dataE k1 m1 c1 s1, .dataE k2 m2 c2 s2 =>
      if h : k1 = k2 ∧ m1 = m2 ∧ c1 = c2 then
        match decEqOptEVal s1 s2 with
        | .isTrue hs => .isTrue (by rw [h.1, h.2.1, h.2.2, hs])
        | .isFalse hs => .isFalse (fun hh => hs (by cases hh; rfl))
      else .isFalse (fun hh => h (by cases hh; exact ⟨rfl, rfl, rfl⟩))
  | .svcE k1 m1 c1 s1, .svcE k2 m2 c2 s2 =>
      if h : k1 = k2 ∧ m1 = m2 ∧ c1 = c2 then
        match decEqOptEVal s1 s2 with
        | .isTrue hs => .isTrue (by rw [h.1, h.2.1, h.2.2, hs])
        | .isFalse hs => .isFalse (fun hh => hs (by cases hh; rfl))
      else .isFalse (fun hh => h (by cases hh; exact ⟨rfl, rfl, rfl⟩))
  | .plainE n1 m1, .plainE n2 m2 =>
      if h : n1 = n2 ∧ m1 = m2 then .isTrue (by rw [h.1, h.2])
      else .isFalse (fun hh => h (by cases hh; exact ⟨rfl, rfl⟩))
  | .rawV v1, .rawV v2 =>
      if h : v1 = v2 then .isTrue (h ▸ rfl)
      else .isFalse (fun hh => h (by cases hh; rfl))
  | .dataE _ _ _ _, .svcE _ _ _ _ | .dataE _ _ _ _, .plainE _ _
  | .dataE _ _ _ _, .rawV _ => .isFalse (fun h => by cases h)
  | .svcE _ _ _ _, .dataE _ _ _ _ | .svcE _ _ _ _, .plainE _ _
  | .svcE _ _ _ _, .rawV _ => .isFalse (fun h => by cases h)
  | .plainE _ _, .dataE _ _ _ _ | .plainE _ _, .svcE _ _ _ _
  | .plainE _ _, .rawV _ => .isFalse (fun h => by cases h)
  | .rawV _, .dataE _ _ _ _ | .rawV _, .svcE _ _ _ _
  | .rawV _, .plainE _ _ => .isFalse (fun h => by cases h)

/-- Decidable equality of optional error values. -/
def decEqOptEVal : (a b : Option EVal) → Decidable (a = b)
  | none, none => .isTrue rfl
  | none, some _ => .isFalse (fun h => by cases h)
  | some _, none => .isFalse (fun h => by cases h)
  | some x, some y =>
      match decEqEVal x y with
      | .isTrue h => .isTrue (h ▸ rfl)
      | .isFalse h => .isFalse (fun hh => h (by cases hh; rfl))

end

instance : DecidableEq EVal := decEqEVal

/-- JavaScript truthiness of a `Val`: `undefined`, `null`, `false`, `0` and the
empty string are falsy, everything else (including `{}` and `[]`) is truthy. -/
def truthy : Val → Bool
  | .vundefined => false
  | .vnull => false
  | .vbool b => b
  | .vnum n => !(n = 0)
  | .vstr s => !(s = "")
  | .varr _ => true
  | .vobj _ => true

/-- Truthiness of an optional value (an absent field is `undefined`, falsy). -/
def truthyOpt : Option Val → Bool
  | none => false
  | some v => truthy v

/-- Truthiness of an error slot: every `Error` instance is an object and hence
truthy; a raw non-`Error` value is as truthy as the value itself. -/
def truthyErr : EVal → Bool
  | .rawV v => truthy v
  | _ => true

/-- Truthiness of an optional error slot (`!this.result.error`). -/
def truthyOptErr : Option EVal → Bool
  | none => false
  | some e => truthyErr e

mutual
/-- JavaScript `String(v)` string conversion restricted to the value domain
above: primitives print their usual text, arrays join their elements with `,`
(with `null`/`undefined` elements printing as the empty string) and plain
objects print as `[object Object]`. -/
def jsString : Val → String
  | .vundefined => "undefined"
  | .vnull => "null"
  | .vbool b => if b then "true" else "false"
  | .vnum n => toString n
  | .vstr s => s
  | .varr items => String.intercalate "," (jsStringItems items)
  | .vobj _ => "[object Object]"

/-- Element-wise conversion used by `String(array)`. -/
def jsStringItems : List Val → List String
  | [] => []
  | .vundefined :: rest => "" :: jsStringItems rest
  | .vnull :: rest => "" :: jsStringItems rest
  | v :: rest => jsString v :: jsStringItems rest
end

/-- `String(e)` for an error slot: `Error.prototype.toString` prints
`name: message` (or just one of the two when the other is empty); a raw value
prints as the value does. -/
def jsStringErr : EVal → String
  | .dataE _ m _ _ => if m = "" then "DataError" else "DataError: " ++ m
  | .svcE _ m _ _ => if m = "" then "ServiceError" else "ServiceError: " ++ m
  | .plainE n m => if m = "" then n else if n = "" then m else n ++ ": " ++ m
  | .rawV v => jsString v

/-- Property read `obj.k` on an association list: the bound value, or
`undefined` when the key is absent. -/
def objGet (entries : List (String × Val)) (k : String) : Val :=
  match entries.find? (fun p => p.1 = k) with
  | some p => p.2
  | none => .vundefined

/-- JavaScript property assignment `acc[k] = v` on an object represented as an
association list: an existing key keeps its position and gets the new value, a
new key is appended. -/
def objAssign (acc : List (String × Val)) (k : String) (v : Val) :
    List (String × Val) :=
  if acc.any (fun p => p.1 = k) then
    acc.map (fun p => if p.1 = k then (k, v) else p)
  else
    acc ++ [(k, v)]

/-- Replay of a sequence of property assignments starting from `{}`; this is
the semantics of building an object by `acc[key] = value` in a loop and also of
the spread-merge `\x7b...a, ...b\x7d` (namely `objFromEntries (a ++ b)`). -/
def objFromEntries (l : List (String × Val)) : List (String × Val) :=
  l.foldl (fun acc p => objAssign acc p.1 p.2) []

/-- Spread-merge of two objects, `\x7b...a, ...b\x7d`. -/
def objMerge (a b : List (String × Val)) : List (String × Val) :=
  objFromEntries (a ++ b)

/-! ## Error factories (src/src/errors/data-error.ts, service-error.ts)

The factories take `entity`/`id` as runtime values (the TypeScript signatures
say `string`, but call sites inside the library cast arbitrary context values
to `string`, and the template literal converts them with `String(...)`). -/

namespace DataError

/-- `DataError.notFound(entity, id, source?)`. -/
def notFound (entity id : Val) (source : Option EVal) : EVal :=
  .dataE .not_found (jsString entity ++ " not found: " ++ jsString id)
    (some [("entity", entity), ("id", id)]) source

/-- `DataError.invalid(message, options?)`. -/
def invalid (message : String) (context : Option (List (String × Val)))
    (source : Option EVal) : EVal :=
  .dataE .invalid message context source

/-- `DataError.query(message, options?)`. -/
def query (message : String) (context : Option (List (String × Val)))
    (source : Option EVal) : EVal :=
  .dataE .query message context source

/-- `DataError.connection(message, options?)`. -/
def connection (message : String) (context : Option (List (String × Val)))
    (source : Option EVal) : EVal :=
  .dataE .connection message context source

/-- `DataError.unexpected(message, options?)`. -/
def unexpected (message : String) (context : Option (List (String × Val)))
    (source : Option EVal) : EVal :=
  .dataE .unexpected message context source

end DataError

namespace ServiceError

/-- `ServiceError.validation(message, options?)`. -/
def validation (message : String) (context : Option (List (String × Val)))
    (source : Option EVal) : EVal :=
  .svcE .validation message context source

/-- `ServiceError.notFound(entity, id, source?)`. -/
def notFound (entity id : Val) (source : Option EVal) : EVal :=
  .svcE .not_found (jsString entity ++ " not found: " ++ jsString id)
    (some [("entity", entity), ("id", id)]) source

/-- `ServiceError.auth(message, options?)`. -/
def auth (message : String) (context : Option (List (String × Val)))
    (source : Option EVal) : EVal :=
  .svcE .auth message context source

/-- `ServiceError.unexpected(message, options?)`. -/
def unexpected (message : String) (context : Option (List (String × Val)))
    (source : Option EVal) : EVal :=
  .svcE .unexpected message context source

/-- `ServiceError.network(message, options?)`. -/
def network (message : String) (context : Option (List (String × Val)))
    (source : Option EVal) : EVal :=
  .svcE .network message context source

end ServiceError

/-- `error instanceof Error` for an error slot: the two taxonomy classes extend
`Error`, a `plainE` is an `Error`, a raw non-`Error` value is not. -/
def isErrorInstance : EVal → Bool
  | .rawV _ => false
  | _ => true

/-- `err instanceof Error ? err : new Error(String(err))` — the wrapping used
whenever a thrown or stored value has to become an `Error`. -/
def coerceToError (e : EVal) : EVal :=
  if isErrorInstance e then e else .plainE "Error" (jsStringErr e)

/-! ## The result wrapper (src/src/result/result-chain.ts)

A `ResultChain` holds one result object `\x7bkind; data?; error?\x7d`; the
chain class itself adds no other state, so the embedding works directly on the
held result. -/

/-- The tag of a result object. -/
inductive RKind where
  | success | error
deriving DecidableEq, Repr

/-- The result object held by a `ResultChain`:
`\x7b kind: "success" | "error"; data?: T; error?: E \x7d`.  `none` models an
absent / `undefined` field. -/
structure ChainRes where
  kind : RKind
  data : Option Val
  error : Option EVal
deriving DecidableEq, Repr

namespace ResultChain

/-- `map(fn)` (result-chain.ts lines 181-204).  `fn` may throw (`.error` of the
embedded function value); `map` itself may throw, which the outer `Except`
records.  On a success result with defined data it applies `fn`; when `fn`
throws it coerces the thrown value to an `Error` and then evaluates
`(this.result.error?.constructor as any).unexpected(...)`: if the result holds
no error object the optional chain yields `undefined` and the member access
throws a `TypeError`; if it holds a `DataError` (resp. `ServiceError`) the
matching static `unexpected` factory runs; any other error object has no
`unexpected` member, so the call throws a `TypeError`.  Otherwise it returns an
error result holding the current (possibly absent) error. -/
def map (c : ChainRes) (fn : Val → Except EVal Val) : Except EVal ChainRes :=
  if c.kind = .success ∧ c.data.isSome then
    match c.data with
    | some d =>
      match fn d with
      | .ok u => .ok ⟨.success, some u, none⟩
      | .error thrown =>
        let err := coerceToError thrown
        match c.error with
        | some (.dataE _ _ _ _) =>
            .ok ⟨.error, none,
              some (DataError.unexpected "Error transforming data" none (some err))⟩
        | some (.svcE _ _ _ _) =>
            .ok ⟨.error, none,
              some (ServiceError.unexpected "Error transforming data" none (some err))⟩
        | none =>
            .error (.plainE "TypeError"
              "Cannot read properties of undefined (reading 'unexpected')")
        | some _ =>
            .error (.plainE "TypeError"
              "this.result.error.constructor.unexpected is not a function")
    | none => .ok ⟨.error, none, c.error⟩
  else
    .ok ⟨.error, none, c.error⟩

/-- `mapAsync(fn)` (result-chain.ts lines 289-313): identical control flow to
`map` with a rejected promise playing the part of the thrown value; the only
difference is the message of the reconstructed `unexpected` error. -/
def mapAsync (c : ChainRes) (fn : Val → Except EVal Val) : Except EVal ChainRes :=
  if c.kind = .success ∧ c.data.isSome then
    match c.data with
    | some d =>
      match fn d with
      | .ok u => .ok ⟨.success, some u, none⟩
      | .error thrown =>
        let err := coerceToError thrown
        match c.error with
        | some (.dataE _ _ _ _) =>
            .ok ⟨.error, none,
              some (DataError.unexpected "Error transforming data asynchronously"
                none (some err))⟩
        | some (.svcE _ _ _ _) =>
            .ok ⟨.error, none,
              some (ServiceError.unexpected "Error transforming data asynchronously"
                none (some err))⟩
        | none =>
            .error (.plainE "TypeError"
              "Cannot read properties of undefined (reading 'unexpected')")
        | some _ =>
            .error (.plainE "TypeError"
              "this.result.error.constructor.unexpected is not a function")
    | none => .ok ⟨.error, none, c.error⟩
  else
    .ok ⟨.error, none, c.error⟩

/-- The default DataError-kind to ServiceError-kind table of `mapErr`. -/
def defaultErrorMap : DataErrorKind → ServiceErrorKind
  | .not_found => .not_found
  | .invalid => .validation
  | .query => .unexpected
  | .connection => .network
  | .unexpected => .unexpected

/-- `mapErr(errorMap?, defaultMessage?)` (result-chain.ts lines 18-119).  The
per-call override table is modelled as a function returning `some k` for the
keys it contains.  `defaultMessage || dataError.message` keeps the data error's
message when `defaultMessage` is absent or empty. -/
def mapErr (c : ChainRes) (errorMap : DataErrorKind → Option ServiceErrorKind)
    (defaultMessage : Option String) : ChainRes :=
  if c.kind = .success then c
  else if truthyOptErr c.error = false then
    ⟨.error, none, some (ServiceError.unexpected "Unknown error occurred" none none)⟩
  else
    match c.error with
    | some (.dataE k msg ctx src) =>
      let serviceErrorKind := (errorMap k).getD (defaultErrorMap k)
      let message :=
        match defaultMessage with
        | some s => if s = "" then msg else s
        | none => msg
      let dataError : EVal := .dataE k msg ctx src
      let serviceError : EVal :=
        match serviceErrorKind with
        | .not_found =>
          if truthy (objGet (ctx.getD []) "entity") ∧ truthy (objGet (ctx.getD []) "id") then
            ServiceError.notFound (objGet (ctx.getD []) "entity")
              (objGet (ctx.getD []) "id") (some dataError)
          else
            ServiceError.notFound (.vstr "item") (.vstr "unknown") (some dataError)
        | .validation => ServiceError.validation message ctx (some dataError)
        | .auth => ServiceError.auth message ctx (some dataError)
        | .network => ServiceError.network message ctx (some dataError)
        | .unexpected => ServiceError.unexpected message ctx (some dataError)
      ⟨.error, none, some serviceError⟩
    | some (.svcE k msg ctx src) => ⟨.error, none, some (.svcE k msg ctx src)⟩
    | some e =>
      ⟨.error, none,
        some (ServiceError.unexpected "Unknown error type" none (some (coerceToError e)))⟩
    | none =>
      ⟨.error, none, some (ServiceError.unexpected "Unknown error occurred" none none)⟩

/-- What an external schema's `safeParse` returns:
`\x7b success: boolean; data?: any; error?: any \x7d`. -/
structure SafeParseRes where
  success : Bool
  data : Option Val
  error : Option Val
deriving DecidableEq, Repr

/-- `validate(schema, errorMessage = "Validation failed")` (result-chain.ts
lines 209-239).  The guard is `this.result.kind !== "success" ||
!this.result.data`, i.e. JavaScript truthiness of the data, and the
passthrough re-wraps the very same result object. -/
def validate (c : ChainRes) (schema : Val → SafeParseRes)
    (errorMessage : String) : ChainRes :=
  if ¬ (c.kind = .success) ∨ truthyOpt c.data = false then c
  else
    match c.data with
    | some d =>
      let validation := schema d
      if validation.success = false then
        let rawErr := validation.error.getD .vundefined
        ⟨.error, none,
          some (ServiceError.validation errorMessage
            (some [("validationErrors", rawErr)])
            (some (.plainE "Error" (jsString rawErr))))⟩
      else
        ⟨.success, validation.data, none⟩
    | none => c

end ResultChain

/-! ## retry (result-chain.ts lines 332-371)

The loop `for (attempt = 1; attempt <= maxAttempts; attempt++)` is embedded as
a recursion on the attempt counter.  The second component of the returned pair
counts how many times `operation` was invoked (one invocation per reached
attempt, so it equals the index of the last attempt).  The inter-attempt delay
only suspends and is dropped by the embedding.  `operation` is modelled as the
attempt-indexed sequence of results it produces. -/

/-- One pass of the retry loop starting at `attempt` (with `1 ≤ attempt ≤ ma`
at every call): invoke the operation; return on success; otherwise retry when
another attempt remains and `shouldRetry` agrees, else break with the last
result. -/
def retryFrom (op : Nat → ChainRes) (ma : Nat)
    (shouldRetry : Option EVal → Nat → Bool) (attempt : Nat) : ChainRes × Nat :=
  let r := op attempt
  if r.kind = .success then (r, attempt)
  else if h : attempt < ma ∧ shouldRetry r.error attempt = true then
    retryFrom op ma shouldRetry (attempt + 1)
  else
    (r, attempt)
termination_by ma - attempt
decreasing_by omega

/-- `retry(operation, options)`: `maxAttempts` is a JavaScript number (here an
integer); when the loop body never runs the initial
`\x7b kind: "error", error: undefined \x7d` placeholder is returned with zero
invocations. -/
def retry (op : Nat → ChainRes) (maxAttempts : Int)
    (shouldRetry : Option EVal → Nat → Bool) : ChainRes × Nat :=
  if maxAttempts.toNat = 0 then (⟨.error, none, none⟩, 0)
  else retryFrom op maxAttempts.toNat shouldRetry 1

/-- The default `shouldRetry = () => true`. -/
def defaultShouldRetry : Option EVal → Nat → Bool := fun _ _ => true

/-! ## enrichErrorContext

The repository contains two divergent revisions of this function.
`ErrorUtils.enrichErrorContext` embeds src/src/errors/error-utils.ts, which
dispatches through the bracket lookup `DataError[error.kind]` /
`ServiceError[error.kind]`: for the kind `not_found` both classes name their
static factory `notFound`, so the lookup yields `undefined` and the call throws
a `TypeError`.  `ErrorUtilsAlt.enrichErrorContext` embeds src/unnamed/part_004,
which switches on the kind explicitly and rebuilds `not_found` errors through
the factory with `'item'`/`'unknown'` placeholders. -/

namespace ErrorUtils

/-- `enrichErrorContext(error, additionalContext)` from
src/src/errors/error-utils.ts. -/
def enrichErrorContext (error : Option EVal)
    (additionalContext : List (String × Val)) : Except EVal EVal :=
  if truthyOptErr error = false then
    .error (.plainE "Error" "Cannot enrich context of undefined error")
  else
    match error with
    | some (.dataE k m ctx src) =>
      let newContext := objMerge (ctx.getD []) additionalContext
      match k with
      | .not_found =>
          .error (.plainE "TypeError" "DataError[error.kind] is not a function")
      | .invalid => .ok (DataError.invalid m (some newContext) src)
      | .query => .ok (DataError.query m (some newContext) src)
      | .connection => .ok (DataError.connection m (some newContext) src)
      | .unexpected => .ok (DataError.unexpected m (some newContext) src)
    | some (.svcE k m ctx src) =>
      let newContext := objMerge (ctx.getD []) additionalContext
      if k = .not_found ∧ truthy (objGet newContext "entity")
          ∧ truthy (objGet newContext "id") then
        .ok (ServiceError.notFound (.vstr (jsString (objGet newContext "entity")))
          (.vstr (jsString (objGet newContext "id"))) src)
      else
        match k with
        | .not_found =>
            .error (.plainE "TypeError" "ServiceError[error.kind] is not a function")
        | .validation => .ok (ServiceError.validation m (some newContext) src)
        | .auth => .ok (ServiceError.auth m (some newContext) src)
        | .network => .ok (ServiceError.network m (some newContext) src)
        | .unexpected => .ok (ServiceError.unexpected m (some newContext) src)
    | some e => .ok e
    | none => .error (.plainE "Error" "Cannot enrich context of undefined error")

end ErrorUtils

namespace ErrorUtilsAlt

/-- The value of `newContext.entity || 'item'` style fallbacks. -/
def orElseStr (v : Val) (placeholder : String) : Val :=
  if truthy v then v else .vstr placeholder

/-- `enrichErrorContext(error, additionalContext)` from src/unnamed/part_004. -/
def enrichErrorContext (error : Option EVal)
    (additionalContext : List (String × Val)) : Except EVal EVal :=
  if truthyOptErr error = false then
    .error (.plainE "Error" "Cannot enrich context of undefined error")
  else
    match error with
    | some (.dataE k m ctx src) =>
      let newContext := objMerge (ctx.getD []) additionalContext
      match k with
      | .not_found =>
          .ok (DataError.notFound
            (.vstr (jsString (orElseStr (objGet newContext "entity") "item")))
            (.vstr (jsString (orElseStr (objGet newContext "id") "unknown"))) src)
      | .invalid => .ok (DataError.invalid m (some newContext) src)
      | .query => .ok (DataError.query m (some newContext) src)
      | .connection => .ok (DataError.connection m (some newContext) src)
      | .unexpected => .ok (DataError.unexpected m (some newContext) src)
    | some (.svcE k m ctx src) =>
      let newContext := objMerge (ctx.getD []) additionalContext
      match k with
      | .not_found =>
          .ok (ServiceError.notFound
            (.vstr (jsString (orElseStr (objGet newContext "entity") "item")))
            (.vstr (jsString (orElseStr (objGet newContext "id") "unknown"))) src)
      | .validation => .ok (ServiceError.validation m (some newContext) src)
      | .auth => .ok (ServiceError.auth m (some newContext) src)
      | .network => .ok (ServiceError.network m (some newContext) src)
      | .unexpected => .ok (ServiceError.unexpected m (some newContext) src)
    | some e => .ok e
    | none => .error (.plainE "Error" "Cannot enrich context of undefined error")

end ErrorUtilsAlt

/-! ## ASCII character classes and case mapping

Shared by the masking denylist comparison (`toLowerCase`) and the key-case
transform (`[a-z]`, `[A-Z]`).  The embedding works on `List Char` throughout
(JavaScript string indexing over the ASCII inputs of this library). -/

/-- The 26 lowercase ASCII letters — the character class `[a-z]`. -/
def lowerChars : List Char :=
  ['a', 'b', 'c', 'd', 'e', 'f', 'g', 'h', 'i', 'j', 'k', 'l', 'm',
   'n', 'o', 'p', 'q', 'r', 's', 't', 'u', 'v', 'w', 'x', 'y', 'z']

/-- The 26 uppercase ASCII letters — the character class `[A-Z]`. -/
def upperChars : List Char :=
  ['A', 'B', 'C', 'D', 'E', 'F', 'G', 'H', 'I', 'J', 'K', 'L', 'M',
   'N', 'O', 'P', 'Q', 'R', 'S', 'T', 'U', 'V', 'W', 'X', 'Y', 'Z']

/-- The ten ASCII digits. -/
def digitChars : List Char :=
  ['0', '1', '2', '3', '4', '5', '6', '7', '8', '9']

/-- ASCII `toUpperCase` of a single character. -/
def toUpperA (c : Char) : Char :=
  if c ∈ lowerChars then Char.ofNat (c.toNat - 32) else c

/-- ASCII `toLowerCase` of a single character. -/
def toLowerA (c : Char) : Char :=
  if c ∈ upperChars then Char.ofNat (c.toNat + 32) else c

/-- `s.toLowerCase()` over the ASCII range. -/
def toLowerStr (s : String) : String := ⟨s.toList.map toLowerA⟩

/-! ## maskSensitive (src/src/utils/masking.ts) -/

/-- The fixed denylist of sensitive field-name fragments. -/
def sensitiveFields : List String :=
  ["password", "secret", "token", "accessToken", "refreshToken", "key",
   "apiKey", "credential", "auth"]

/-- `hay.includes(needle)` — substring containment. -/
def strContains (hay needle : String) : Bool :=
  hay.toList.tails.any (fun t => needle.toList.isPrefixOf t)

/-- `sensitiveFields.some(field => key.toLowerCase().includes(field.toLowerCase()))`. -/
def isSensitiveKey (k : String) : Bool :=
  sensitiveFields.any (fun f => strContains (toLowerStr k) (toLowerStr f))

/-- The string rewriting applied to a sensitive string value:
`value.substring(0, 4) + "..." + value.substring(value.length - 4)` when the
length exceeds 8, otherwise the fixed `"********"` mask. -/
def maskString (s : String) : String :=
  if 8 < s.toList.length then
    ⟨s.toList.take 4 ++ ['.', '.', '.'] ++ s.toList.drop (s.toList.length - 4)⟩
  else "********"

mutual

/-- `maskSensitive(data)`: falsy and non-object values pass through, arrays map
element-wise, objects rewrite sensitive string-valued fields and recurse into
non-sensitive object-valued fields. -/
def maskSensitive : Val → Val
  | .varr items => .varr (maskSensitiveList items)
  | .vobj entries => .vobj (maskSensitiveEntries entries)
  | v => v

/-- `data.map(item => maskSensitive(item))`. -/
def maskSensitiveList : List Val → List Val
  | [] => []
  | v :: rest => maskSensitive v :: maskSensitiveList rest

/-- The `for (const key in masked)` loop body, entry by entry: a sensitive key
with a string value is rewritten by `maskString`; a sensitive key with any
other value is left untouched (no recursion); a non-sensitive key recurses
into object and array values and keeps everything else. -/
def maskSensitiveEntries : List (String × Val) → List (String × Val)
  | [] => []
  | (k, .vstr s) :: rest =>
      (k, if isSensitiveKey k then .vstr (maskString s) else .vstr s)
        :: maskSensitiveEntries rest
  | (k, .vobj es) :: rest =>
      (k, if isSensitiveKey k then .vobj es else .vobj (maskSensitiveEntries es))
        :: maskSensitiveEntries rest
  | (k, .varr its) :: rest =>
      (k, if isSensitiveKey k then .varr its else .varr (maskSensitiveList its))
        :: maskSensitiveEntries rest
  | (k, v) :: rest => (k, v) :: maskSensitiveEntries rest

end

/-! ## Key-case transform (src/unnamed/part_003) -/

/-- `str.replace(/_([a-z])/g, (_, letter) => letter.toUpperCase())` on the
character list: each underscore immediately followed by a lowercase letter is
replaced by that letter uppercased; the scan is left to right and
non-overlapping. -/
def snakeToCamelL : List Char → List Char
  | '_' :: c :: rest =>
    if c ∈ lowerChars then toUpperA c :: snakeToCamelL rest
    else '_' :: snakeToCamelL (c :: rest)
  | c :: rest => c :: snakeToCamelL rest
  | [] => []

/-- `snakeToCamel(str)`. -/
def snakeToCamel (s : String) : String := ⟨snakeToCamelL s.toList⟩

/-- What one character contributes under
`str.replace(/[A-Z]/g, letter => "_" + letter.toLowerCase())`. -/
def camelExpand (c : Char) : List Char :=
  if c ∈ upperChars then ['_', toLowerA c] else [c]

/-- The same replacement over a character list. -/
def camelToSnakeL : List Char → List Char
  | [] => []
  | c :: rest => camelExpand c ++ camelToSnakeL rest

/-- `camelToSnake(str)`. -/
def camelToSnake (s : String) : String := ⟨camelToSnakeL s.toList⟩

mutual

/-- `transformKeys(data, transformer, deep = true)`: arrays map over their
items recursing into objects, objects rebuild their entries with transformed
keys (by repeated assignment, hence `objFromEntries`) and recurse into object
values; all other values are returned unchanged. -/
def transformKeysVal (tr : String → String) : Val → Val
  | .varr items => .varr (transformKeysList tr items)
  | .vobj entries => .vobj (objFromEntries (transformKeysPairs tr entries))
  | v => v

/-- The array branch of `transformKeys`. -/
def transformKeysList (tr : String → String) : List Val → List Val
  | [] => []
  | .vobj es :: rest =>
      transformKeysVal tr (.vobj es) :: transformKeysList tr rest
  | .varr its :: rest =>
      transformKeysVal tr (.varr its) :: transformKeysList tr rest
  | v :: rest => v :: transformKeysList tr rest

/-- The per-entry work of the `Object.entries(data).reduce` loop: transformed
key and (for object values) recursively transformed value. -/
def transformKeysPairs (tr : String → String) :
    List (String × Val) → List (String × Val)
  | [] => []
  | (k, .vobj es) :: rest =>
      (tr k, transformKeysVal tr (.vobj es)) :: transformKeysPairs tr rest
  | (k, .varr its) :: rest =>
      (tr k, transformKeysVal tr (.varr its)) :: transformKeysPairs tr rest
  | (k, v) :: rest => (tr k, v) :: transformKeysPairs tr rest

end

/-- `transformToCamelCase(data)`. -/
def transformToCamelCase : Val → Val := transformKeysVal snakeToCamel

/-- `transformToSnakeCase(data)`. -/
def transformToSnakeCase : Val → Val := transformKeysVal camelToSnake

/-! ## Claims -/

/-- Claim C1.  The claim states that `map`/`mapAsync` on a success-state chain
with data present catch a throwing transform and convert it to an
`unexpected`-kind error, with no exception escaping.  The code does not do
this: in success state `this.result.error` is `undefined`, so the catch
handler's `(this.result.error?.constructor as any).unexpected(...)` dereferences
`undefined` and the resulting `TypeError` escapes `map` (and `mapAsync`)
uncaught.  This theorem evaluates the embedded code at the failing input
`chain(\x7bkind:"success", data:1\x7d)` with a transform throwing
`new Error("boom")`: both operations throw instead of returning a chain. -/
theorem c1_map_exception_escapes :
    ResultChain.map ⟨.success, some (.vnum 1), none⟩
        (fun _ => .error (.plainE "Error" "boom"))
      = .error (.plainE "TypeError"
          "Cannot read properties of undefined (reading 'unexpected')")
    ∧ ResultChain.mapAsync ⟨.success, some (.vnum 1), none⟩
        (fun _ => .error (.plainE "Error" "boom"))
      = .error (.plainE "TypeError"
          "Cannot read properties of undefined (reading 'unexpected')") :=
  ⟨rfl, rfl⟩

/-- Claim C2: on an error-state chain, `map`, `mapAsync` and `validate` pass
the carried error value through untouched (short-circuit law); `validate` even
returns the identical result object. -/
theorem c2_error_short_circuit (c : ChainRes) (h : c.kind = .error)
    (fn fn2 : Val → Except EVal Val) (schema : Val → ResultChain.SafeParseRes)
    (em : String) :
    ResultChain.map c fn = .ok ⟨.error, none, c.error⟩
    ∧ ResultChain.mapAsync c fn2 = .ok ⟨.error, none, c.error⟩
    ∧ ResultChain.validate c schema em = c := by
  refine ⟨?_, ?_, ?_⟩ <;>
    simp [ResultChain.map, ResultChain.mapAsync, ResultChain.validate, h]

/-- Witness for C2 at a concrete error-state chain carrying a query-kind
DataError. -/
theorem c2_error_short_circuit_witness :
    ResultChain.map ⟨.error, none, some (.dataE .query "q" none none)⟩
        (fun v => .ok v)
      = .ok ⟨.error, none, some (.dataE .query "q" none none)⟩
    ∧ ResultChain.mapAsync ⟨.error, none, some (.dataE .query "q" none none)⟩
        (fun v => .ok v)
      = .ok ⟨.error, none, some (.dataE .query "q" none none)⟩
    ∧ ResultChain.validate ⟨.error, none, some (.dataE .query "q" none none)⟩
        (fun _ => ⟨true, none, none⟩) "m"
      = ⟨.error, none, some (.dataE .query "q" none none)⟩ :=
  c2_error_short_circuit ⟨.error, none, some (.dataE .query "q" none none)⟩ rfl
    (fun v => .ok v) (fun v => .ok v) (fun _ => ⟨true, none, none⟩) "m"

/-- Claim C9: `mapErr` on an error-state result whose `error` field is absent
returns an error chain carrying `ServiceError.unexpected("Unknown error
occurred")` with no context and no source — it neither throws nor propagates
the absent value. -/
theorem c9_mapErr_absent_error
    (errorMap : DataErrorKind → Option ServiceErrorKind) (dm : Option String)
    (d : Option Val) :
    ResultChain.mapErr ⟨.error, d, none⟩ errorMap dm
      = ⟨.error, none, some (.svcE .unexpected "Unknown error occurred" none none)⟩ := by
  simp [ResultChain.mapErr, truthyOptErr, ServiceError.unexpected]

/-- Claim C10: `retry` with `maxAttempts ≤ 0` returns the initial
`\x7bkind:"error", error: undefined\x7d` placeholder without invoking the
operation. -/
theorem c10_retry_nonpositive (ma : Int) (h : ma ≤ 0) (op : Nat → ChainRes)
    (sr : Option EVal → Nat → Bool) :
    retry op ma sr = (⟨.error, none, none⟩, 0) := by
  simp [retry, Int.toNat_eq_zero.mpr h]

/-- Witness for C10 at `maxAttempts = 0` with an operation that would
succeed immediately if invoked. -/
theorem c10_retry_nonpositive_witness :
    retry (fun _ => ⟨.success, some (.vnum 1), none⟩) 0 defaultShouldRetry
      = (⟨.error, none, none⟩, 0) :=
  c10_retry_nonpositive 0 (by decide) (fun _ => ⟨.success, some (.vnum 1), none⟩)
    defaultShouldRetry

/-- Claim C3: `mapErr` on a chain carrying a DataError produces an error chain
carrying a ServiceError whose kind is the per-call override's entry for the
DataError's kind when present, else the default table entry
(`not_found→not_found, invalid→validation, query→unexpected,
connection→network, unexpected→unexpected`), with the original DataError
attached as `source`; in particular `mapErr(\x7bquery: "auth"\x7d)` on a
query-kind DataError yields an auth-kind ServiceError, and with no override a
query-kind DataError yields an unexpected-kind ServiceError. -/
theorem c3_mapErr_kind_table :
    (∀ (k : DataErrorKind) (m : String) (ctx : Option (List (String × Val)))
        (src : Option EVal) (errorMap : DataErrorKind → Option ServiceErrorKind)
        (dm : Option String) (d : Option Val),
      ∃ k' m' ctx',
        ResultChain.mapErr ⟨.error, d, some (.dataE k m ctx src)⟩ errorMap dm
          = ⟨.error, none, some (.svcE k' m' ctx' (some (.dataE k m ctx src)))⟩
        ∧ k' = (errorMap k).getD (match k with
            | .not_found => .not_found
            | .invalid => .validation
            | .query => .unexpected
            | .connection => .network
            | .unexpected => .unexpected))
    ∧ ResultChain.mapErr ⟨.error, none, some (.dataE .query "q failed" none none)⟩
        (fun kk => match kk with | .query => some .auth | _ => none) none
      = ⟨.error, none, some (.svcE .auth "q failed" none
          (some (.dataE .query "q failed" none none)))⟩
    ∧ ResultChain.mapErr ⟨.error, none, some (.dataE .query "q failed" none none)⟩
        (fun _ => none) none
      = ⟨.error, none, some (.svcE .unexpected "q failed" none
          (some (.dataE .query "q failed" none none)))⟩ := by
  refine ⟨?_, rfl, rfl⟩
  intro k m ctx src errorMap dm d
  have htab : (match k with
      | .not_found => ServiceErrorKind.not_found
      | .invalid => .validation
      | .query => .unexpected
      | .connection => .network
      | .unexpected => .unexpected) = ResultChain.defaultErrorMap k := by
    cases k <;> rfl
  rw [htab]
  cases hsk : (errorMap k).getD (ResultChain.defaultErrorMap k) with
  | not_found =>
    by_cases hc : truthy (objGet (ctx.getD []) "entity") = true
        ∧ truthy (objGet (ctx.getD []) "id") = true
    · refine ⟨.not_found,
        jsString (objGet (ctx.getD []) "entity") ++ " not found: "
          ++ jsString (objGet (ctx.getD []) "id"),
        some [("entity", objGet (ctx.getD []) "entity"),
          ("id", objGet (ctx.getD []) "id")], ?_, rfl⟩
      simp [ResultChain.mapErr, truthyOptErr, truthyErr, hsk, hc,
        ServiceError.notFound]
    · refine ⟨.not_found, "item not found: unknown",
        some [("entity", Val.vstr "item"), ("id", Val.vstr "unknown")], ?_, rfl⟩
      simp only [ResultChain.mapErr, truthyOptErr, truthyErr]
      simp [hsk, hc, ServiceError.notFound, jsString]
  | validation =>
    refine ⟨.validation,
      (match dm with | some s => if s = "" then m else s | none => m), ctx,
      ?_, rfl⟩
    simp [ResultChain.mapErr, truthyOptErr, truthyErr, hsk,
      ServiceError.validation]
  | auth =>
    refine ⟨.auth,
      (match dm with | some s => if s = "" then m else s | none => m), ctx,
      ?_, rfl⟩
    simp [ResultChain.mapErr, truthyOptErr, truthyErr, hsk, ServiceError.auth]
  | network =>
    refine ⟨.network,
      (match dm with | some s => if s = "" then m else s | none => m), ctx,
      ?_, rfl⟩
    simp [ResultChain.mapErr, truthyOptErr, truthyErr, hsk,
      ServiceError.network]
  | unexpected =>
    refine ⟨.unexpected,
      (match dm with | some s => if s = "" then m else s | none => m), ctx,
      ?_, rfl⟩
    simp [ResultChain.mapErr, truthyOptErr, truthyErr, hsk,
      ServiceError.unexpected]

/-- Counterexample to claim C4 as stated.  The claim says `validate` is a
no-op passthrough unless the state is success with *non-absent* data, and that
on success with non-absent data it invokes `safeParse` and on failure returns a
validation-error chain.  With present-but-falsy data `0` and an
always-failing schema, the guard `!this.result.data` makes `validate` pass the
success result through unchanged instead of producing the validation error the
claim requires. -/
theorem c4_validate_counterexample :
    ResultChain.validate ⟨.success, some (.vnum 0), none⟩
        (fun _ => ⟨false, none, some (.vstr "bad")⟩) "Validation failed"
      = ⟨.success, some (.vnum 0), none⟩
    ∧ (ResultChain.validate ⟨.success, some (.vnum 0), none⟩
        (fun _ => ⟨false, none, some (.vstr "bad")⟩) "Validation failed").kind
      ≠ .error :=
  ⟨rfl, by decide⟩

/-- Claim C4 as amended: `validate` is a no-op passthrough unless the chain's
state is success with *truthy* data (JavaScript truthiness: absent,
`undefined`, `null`, `false`, `0` and `""` all pass through); when the state is
success with truthy data it invokes the schema's `safeParse`, and on failure
returns an error chain carrying a validation-kind ServiceError whose
`context.validationErrors` is the raw validation failure with the original
data discarded, while on success it returns a success chain whose data is the
schema's parsed value. -/
theorem c4_validate_truthy_guard (c : ChainRes)
    (schema : Val → ResultChain.SafeParseRes) (em : String) :
    (¬ (c.kind = .success ∧ truthyOpt c.data = true) →
      ResultChain.validate c schema em = c)
    ∧ (∀ d, c.kind = .success → c.data = some d → truthy d = true →
        ((schema d).success = false →
          ResultChain.validate c schema em
            = ⟨.error, none, some (.svcE .validation em
                (some [("validationErrors", (schema d).error.getD .vundefined)])
                (some (.plainE "Error" (jsString ((schema d).error.getD .vundefined)))))⟩)
        ∧ ((schema d).success = true →
          ResultChain.validate c schema em = ⟨.success, (schema d).data, none⟩)) := by
  constructor
  · intro h
    have hguard : ¬ (c.kind = .success) ∨ truthyOpt c.data = false := by
      by_cases hk : c.kind = .success
      · right
        cases hdata : truthyOpt c.data with
        | true => exact absurd ⟨hk, hdata⟩ h
        | false => rfl
      · exact Or.inl hk
    simp [ResultChain.validate, hguard]
  · intro d hk hd ht
    obtain ⟨ck, cd, ce⟩ := c
    simp only at hk hd
    subst hk
    subst hd
    constructor
    · intro hfail
      simp [ResultChain.validate, truthyOpt, ht, hfail, ServiceError.validation]
    · intro hok
      simp [ResultChain.validate, truthyOpt, ht, hok]

/-- Witness for the amended C4: a passthrough on an error-state chain, a
failing validation on truthy data, and a coercing successful validation. -/
theorem c4_validate_truthy_guard_witness :
    ResultChain.validate ⟨.error, none, some (.dataE .query "q" none none)⟩
        (fun _ => ⟨false, none, some (.vstr "bad")⟩) "m"
      = ⟨.error, none, some (.dataE .query "q" none none)⟩
    ∧ ResultChain.validate ⟨.success, some (.vstr "x"), none⟩
        (fun _ => ⟨false, none, some (.vstr "bad")⟩) "m"
      = ⟨.error, none, some (.svcE .validation "m"
          (some [("validationErrors", .vstr "bad")])
          (some (.plainE "Error" "bad")))⟩
    ∧ ResultChain.validate ⟨.success, some (.vstr "5"), none⟩
        (fun _ => ⟨true, some (.vnum 5), none⟩) "m"
      = ⟨.success, some (.vnum 5), none⟩ :=
  ⟨(c4_validate_truthy_guard ⟨.error, none, some (.dataE .query "q" none none)⟩
      (fun _ => ⟨false, none, some (.vstr "bad")⟩) "m").1 (by decide),
   ((c4_validate_truthy_guard ⟨.success, some (.vstr "x"), none⟩
      (fun _ => ⟨false, none, some (.vstr "bad")⟩) "m").2 (.vstr "x") rfl rfl
      (by decide)).1 rfl,
   ((c4_validate_truthy_guard ⟨.success, some (.vstr "5"), none⟩
      (fun _ => ⟨true, some (.vnum 5), none⟩) "m").2 (.vstr "5") rfl rfl
      (by decide)).2 rfl⟩

/-- Loop invariant of `retryFrom`: started at attempt `a` (with
`1 ≤ a ≤ ma`), the loop stops at some attempt `k` between `a` and `ma`,
returns exactly the result of the `k`-th invocation together with the
invocation count, and every attempt strictly before `k` produced an error
result. -/
theorem retryFrom_last (op : Nat → ChainRes) (ma : Nat)
    (sr : Option EVal → Nat → Bool) :
    ∀ n a, ma - a ≤ n → 1 ≤ a → a ≤ ma →
    ∃ k, a ≤ k ∧ k ≤ ma ∧ retryFrom op ma sr a = (op k, k) ∧
      ∀ j, a ≤ j → j < k → (op j).kind = .error := by
  intro n
  induction n with
  | zero =>
    intro a hle h1 hma
    have ha : a = ma := by omega
    refine ⟨a, le_rfl, hma, ?_, fun j hj hj2 => absurd hj2 (by omega)⟩
    rw [retryFrom]
    by_cases hs : (op a).kind = .success
    · simp [hs]
    · have hcond : ¬ (a < ma ∧ sr (op a).error a = true) := by
        intro hcond
        omega
      simp [hs, hcond]
  | succ n ih =>
    intro a hle h1 hma
    by_cases hs : (op a).kind = .success
    · refine ⟨a, le_rfl, hma, ?_, fun j hj hj2 => absurd hj2 (by omega)⟩
      rw [retryFrom]
      simp [hs]
    · have herr : (op a).kind = .error := by
        cases hk : (op a).kind
        · exact absurd hk hs
        · rfl
      by_cases hc : a < ma ∧ sr (op a).error a = true
      · obtain ⟨k, hk1, hk2, heq, hmid⟩ :=
          ih (a + 1) (by omega) (by omega) (by omega)
        refine ⟨k, by omega, hk2, ?_, ?_⟩
        · rw [retryFrom]
          simp only [hs, if_false]
          rw [dif_pos hc]
          exact heq
        · intro j hj hj2
          rcases Nat.eq_or_lt_of_le hj with hja | hja
          · exact hja ▸ herr
          · exact hmid j (by omega) hj2
      · refine ⟨a, le_rfl, hma, ?_, fun j hj hj2 => absurd hj2 (by omega)⟩
        rw [retryFrom]
        simp only [hs, if_false]
        rw [dif_neg hc]

/-- Claim C6: `retry` with `maxAttempts = 3`, an always-failing operation and
the default `shouldRetry` invokes the operation exactly three times and
returns the third error result; with `shouldRetry` returning false on attempt
1 it invokes the operation exactly once and returns that error result; and in
general (`maxAttempts ≥ 1`) retry returns the result of the last invocation it
performed, every earlier invocation having produced an error — so it returns
immediately on the first success and never loses the final result.  (The
embedding is a total function, so no exception is thrown by construction.) -/
theorem c6_retry_attempt_counts :
    (∀ op : Nat → ChainRes, (∀ n, (op n).kind = .error) →
      retry op 3 defaultShouldRetry = (op 3, 3))
    ∧ (∀ (op : Nat → ChainRes) (sr : Option EVal → Nat → Bool),
        (∀ n, (op n).kind = .error) → sr (op 1).error 1 = false →
        retry op 3 sr = (op 1, 1))
    ∧ (∀ (op : Nat → ChainRes) (ma : Int) (sr : Option EVal → Nat → Bool),
        1 ≤ ma → ∃ k : Nat, 1 ≤ k ∧ (k : Int) ≤ ma ∧ retry op ma sr = (op k, k) ∧
          ∀ j, 1 ≤ j → j < k → (op j).kind = .error) := by
  have h3 : (3 : Int).toNat = 3 := rfl
  refine ⟨?_, ?_, ?_⟩
  · intro op h
    simp only [retry, h3]
    rw [if_neg (by omega)]
    rw [retryFrom]
    simp [h 1, defaultShouldRetry]
    rw [retryFrom]
    simp [h 2, defaultShouldRetry]
    rw [retryFrom]
    simp [h 3, defaultShouldRetry]
  · intro op sr h hsr
    simp only [retry, h3]
    rw [if_neg (by omega)]
    rw [retryFrom]
    simp [h 1, hsr]
  · intro op ma sr hma
    have htn : ma.toNat ≠ 0 := by omega
    obtain ⟨k, hk1, hk2, heq, hmid⟩ :=
      retryFrom_last op ma.toNat sr (ma.toNat - 1) 1 (by omega) le_rfl (by omega)
    refine ⟨k, hk1, by omega, ?_, hmid⟩
    simp only [retry]
    rw [if_neg htn]
    exact heq

/-- Witness for C6 at a concrete always-failing operation. -/
theorem c6_retry_attempt_counts_witness :
    retry (fun n => ⟨.error, none, some (.dataE .query (toString n) none none)⟩)
        3 defaultShouldRetry
      = (⟨.error, none, some (.dataE .query "3" none none)⟩, 3)
    ∧ retry (fun n => ⟨.error, none, some (.dataE .query (toString n) none none)⟩)
        3 (fun _ _ => false)
      = (⟨.error, none, some (.dataE .query "1" none none)⟩, 1)
    ∧ ∃ k : Nat, 1 ≤ k ∧ (k : Int) ≤ 3
        ∧ retry (fun n => ⟨.error, none, some (.dataE .query (toString n) none none)⟩)
            3 defaultShouldRetry
          = ((fun n => (⟨.error, none,
                some (.dataE .query (toString n) none none)⟩ : ChainRes)) k, k)
        ∧ ∀ j, 1 ≤ j → j < k →
            ((fun n => (⟨.error, none,
              some (.dataE .query (toString n) none none)⟩ : ChainRes)) j).kind
              = .error :=
  ⟨c6_retry_attempt_counts.1
      (fun n => ⟨.error, none, some (.dataE .query (toString n) none none)⟩)
      (fun _ => rfl),
   c6_retry_attempt_counts.2.1
      (fun n => ⟨.error, none, some (.dataE .query (toString n) none none)⟩)
      (fun _ _ => false) (fun _ => rfl) rfl,
   c6_retry_attempt_counts.2.2
      (fun n => ⟨.error, none, some (.dataE .query (toString n) none none)⟩)
      3 defaultShouldRetry (by decide)⟩

/-- Counterexample to claim C5 as stated.  The claim requires the enriched
error's context to equal the full merge of the old context and the added
context in every case.  Enriching the not-found ServiceError
`ServiceError.notFound("Order", "9")` with the extra key
`requestId: "r1"` rebuilds the error through the not-found factory, whose
context is exactly the entity/id pair: the `requestId` entry of the merge is
dropped.  Both source revisions of `enrichErrorContext` agree on this
result. -/
theorem c5_enrich_counterexample :
    ErrorUtils.enrichErrorContext
        (some (ServiceError.notFound (.vstr "Order") (.vstr "9") none))
        [("requestId", .vstr "r1")]
      = .ok (.svcE .not_found "Order not found: 9"
          (some [("entity", .vstr "Order"), ("id", .vstr "9")]) none)
    ∧ ErrorUtilsAlt.enrichErrorContext
        (some (ServiceError.notFound (.vstr "Order") (.vstr "9") none))
        [("requestId", .vstr "r1")]
      = .ok (.svcE .not_found "Order not found: 9"
          (some [("entity", .vstr "Order"), ("id", .vstr "9")]) none)
    ∧ objMerge [("entity", Val.vstr "Order"), ("id", Val.vstr "9")]
        [("requestId", .vstr "r1")]
      = [("entity", .vstr "Order"), ("id", .vstr "9"), ("requestId", .vstr "r1")]
    ∧ (some [("entity", Val.vstr "Order"), ("id", Val.vstr "9")]
        : Option (List (String × Val)))
      ≠ some [("entity", .vstr "Order"), ("id", .vstr "9"),
          ("requestId", .vstr "r1")] :=
  ⟨rfl, rfl, rfl, by decide⟩

/-- Claim C5 as amended, settled against the src/unnamed/part_004 revision of
`enrichErrorContext` (the src/src/errors/error-utils.ts revision throws a
`TypeError` for every not-found DataError because `DataError[error.kind]` does
not resolve to the `notFound` factory).  For every DataError or ServiceError
and context map: the enriched error keeps the kind and the source; for every
kind other than `not_found` it keeps the original message and carries exactly
the merged context; for `not_found`, when the merged context carries truthy
`entity`/`id` the error is rebuilt through the not-found factory, so its
message is regenerated as `"<entity> not found: <id>"` and its context is
exactly the stringified entity/id pair (extra merged keys are dropped); in
particular enriching `DataError.notFound("Order","9")` with
`entity:"Order", id:"9"` yields the message `"Order not found: 9"`. -/
theorem c5_enrich_amended (m : String) (ctx : Option (List (String × Val)))
    (src : Option EVal) (c : List (String × Val)) :
    (∀ k : DataErrorKind, k ≠ .not_found →
      ErrorUtilsAlt.enrichErrorContext (some (.dataE k m ctx src)) c
        = .ok (.dataE k m (some (objMerge (ctx.getD []) c)) src))
    ∧ (∀ k : ServiceErrorKind, k ≠ .not_found →
      ErrorUtilsAlt.enrichErrorContext (some (.svcE k m ctx src)) c
        = .ok (.svcE k m (some (objMerge (ctx.getD []) c)) src))
    ∧ (truthy (objGet (objMerge (ctx.getD []) c) "entity") = true →
       truthy (objGet (objMerge (ctx.getD []) c) "id") = true →
      ErrorUtilsAlt.enrichErrorContext (some (.dataE .not_found m ctx src)) c
        = .ok (.dataE .not_found
            (jsString (objGet (objMerge (ctx.getD []) c) "entity")
              ++ " not found: "
              ++ jsString (objGet (objMerge (ctx.getD []) c) "id"))
            (some [("entity",
                .vstr (jsString (objGet (objMerge (ctx.getD []) c) "entity"))),
              ("id", .vstr (jsString (objGet (objMerge (ctx.getD []) c) "id")))])
            src)
      ∧ ErrorUtilsAlt.enrichErrorContext (some (.svcE .not_found m ctx src)) c
        = .ok (.svcE .not_found
            (jsString (objGet (objMerge (ctx.getD []) c) "entity")
              ++ " not found: "
              ++ jsString (objGet (objMerge (ctx.getD []) c) "id"))
            (some [("entity",
                .vstr (jsString (objGet (objMerge (ctx.getD []) c) "entity"))),
              ("id", .vstr (jsString (objGet (objMerge (ctx.getD []) c) "id")))])
            src))
    ∧ ErrorUtilsAlt.enrichErrorContext
        (some (DataError.notFound (.vstr "Order") (.vstr "9") none))
        [("entity", .vstr "Order"), ("id", .vstr "9")]
      = .ok (.dataE .not_found "Order not found: 9"
          (some [("entity", .vstr "Order"), ("id", .vstr "9")]) none) := by
  refine ⟨?_, ?_, ?_, rfl⟩
  · intro k hk
    cases k
    · exact absurd rfl hk
    all_goals
      simp [ErrorUtilsAlt.enrichErrorContext, truthyOptErr, truthyErr,
        DataError.invalid, DataError.query, DataError.connection,
        DataError.unexpected]
  · intro k hk
    cases k
    case not_found => exact absurd rfl hk
    all_goals
      simp [ErrorUtilsAlt.enrichErrorContext, truthyOptErr, truthyErr,
        ServiceError.validation, ServiceError.auth, ServiceError.network,
        ServiceError.unexpected]
  · intro he hi
    constructor <;>
      simp [ErrorUtilsAlt.enrichErrorContext, truthyOptErr, truthyErr,
        ErrorUtilsAlt.orElseStr, he, hi, DataError.notFound,
        ServiceError.notFound, jsString]

/-- Witness for the amended C5: a query-kind DataError and an auth-kind
ServiceError keep message and merged context, and a not-found ServiceError
with truthy merged entity/id is rebuilt with a regenerated message. -/
theorem c5_enrich_amended_witness :
    ErrorUtilsAlt.enrichErrorContext
        (some (.dataE .query "q failed" none none)) [("a", .vnum 1)]
      = .ok (.dataE .query "q failed" (some [("a", .vnum 1)]) none)
    ∧ ErrorUtilsAlt.enrichErrorContext
        (some (.svcE .auth "denied" none none)) [("a", .vnum 1)]
      = .ok (.svcE .auth "denied" (some [("a", .vnum 1)]) none)
    ∧ ErrorUtilsAlt.enrichErrorContext
        (some (.svcE .not_found "old" (some [("entity", .vstr "Order")]) none))
        [("id", .vstr "9")]
      = .ok (.svcE .not_found "Order not found: 9"
          (some [("entity", .vstr "Order"), ("id", .vstr "9")]) none) :=
  ⟨(c5_enrich_amended "q failed" none none [("a", .vnum 1)]).1 .query (by decide),
   (c5_enrich_amended "denied" none none [("a", .vnum 1)]).2.1 .auth (by decide),
   ((c5_enrich_amended "old" (some [("entity", .vstr "Order")]) none
      [("id", .vstr "9")]).2.2.1 (by decide) (by decide)).2⟩

/-- Counterexample to claim C7 as stated.  The claim's general rule (first
four + `"..."` + last four) is what the code implements, but the claim's own
example output `\x7bpassword:"abcd...h12", name:"Al"\x7d` contradicts it: the
last four characters of `"abcdefgh12"` are `"gh12"`, so the code produces
`"abcd...gh12"`, not `"abcd...h12"`. -/
theorem c7_mask_counterexample :
    maskSensitive (.vobj [("password", .vstr "abcdefgh12"), ("name", .vstr "Al")])
      = .vobj [("password", .vstr "abcd...gh12"), ("name", .vstr "Al")]
    ∧ maskSensitive (.vobj [("password", .vstr "abcdefgh12"), ("name", .vstr "Al")])
      ≠ .vobj [("password", .vstr "abcd...h12"), ("name", .vstr "Al")] := by
  have he : maskSensitive
      (.vobj [("password", .vstr "abcdefgh12"), ("name", .vstr "Al")])
      = .vobj [("password", .vstr "abcd...gh12"), ("name", .vstr "Al")] := by
    simp +decide [maskSensitive, maskSensitiveEntries]
  refine ⟨he, ?_⟩
  rw [he]
  decide

/-- Sensitive string-valued entries are rewritten by the masking rule. -/
theorem mem_maskSensitiveEntries_str (k s : String) :
    ∀ entries : List (String × Val), (k, Val.vstr s) ∈ entries →
    isSensitiveKey k = true →
    (k, Val.vstr (maskString s)) ∈ maskSensitiveEntries entries := by
  intro entries
  induction entries with
  | nil => intro h _; cases h
  | cons p rest ih =>
    intro hmem hsens
    obtain ⟨k', v'⟩ := p
    rcases List.mem_cons.mp hmem with heq | htail
    · cases heq
      simp [maskSensitiveEntries, hsens]
    · have hmt := ih htail hsens
      cases v' <;> simp [maskSensitiveEntries, hmt]

/-- Sensitive entries holding a non-string value are left untouched. -/
theorem mem_maskSensitiveEntries_nonstr (k : String) (v : Val)
    (hnv : ∀ s, v ≠ Val.vstr s) :
    ∀ entries : List (String × Val), (k, v) ∈ entries →
    isSensitiveKey k = true →
    (k, v) ∈ maskSensitiveEntries entries := by
  intro entries
  induction entries with
  | nil => intro h _; cases h
  | cons p rest ih =>
    intro hmem hsens
    obtain ⟨k', v'⟩ := p
    rcases List.mem_cons.mp hmem with heq | htail
    · cases heq
      cases v with
      | vstr s => exact absurd rfl (hnv s)
      | vobj es => simp [maskSensitiveEntries, hsens]
      | varr its => simp [maskSensitiveEntries, hsens]
      | vundefined => simp [maskSensitiveEntries]
      | vnull => simp [maskSensitiveEntries]
      | vbool b => simp [maskSensitiveEntries]
      | vnum n => simp [maskSensitiveEntries]
    · have hmt := ih htail hsens
      cases v' <;> simp [maskSensitiveEntries, hmt]

/-- Claim C7 as amended: every entry of the input object whose key
case-insensitively contains a denylist word and whose value is a string is
rewritten — strings longer than 8 characters become the first four characters
+ `"..."` + the last four characters, shorter-or-equal strings become
`"********"` — and sensitive non-string values are left untouched; in
particular `maskSensitive(\x7bpassword:"abcdefgh12", name:"Al"\x7d)` yields
`\x7bpassword:"abcd...gh12", name:"Al"\x7d` (the claim's own example miscounts
the last four characters) and `maskSensitive(\x7btoken:"short"\x7d)` yields
`\x7btoken:"********"\x7d`. -/
theorem c7_mask_amended :
    (∀ (entries : List (String × Val)) (k s : String),
      (k, Val.vstr s) ∈ entries → isSensitiveKey k = true →
      ∃ masked, maskSensitive (.vobj entries) = .vobj masked
        ∧ (k, Val.vstr (if 8 < s.toList.length
            then ⟨s.toList.take 4 ++ ['.', '.', '.']
              ++ s.toList.drop (s.toList.length - 4)⟩
            else "********")) ∈ masked)
    ∧ (∀ (entries : List (String × Val)) (k : String) (v : Val),
      (k, v) ∈ entries → isSensitiveKey k = true → (∀ s, v ≠ .vstr s) →
      ∃ masked, maskSensitive (.vobj entries) = .vobj masked ∧ (k, v) ∈ masked)
    ∧ maskSensitive (.vobj [("password", .vstr "abcdefgh12"), ("name", .vstr "Al")])
      = .vobj [("password", .vstr "abcd...gh12"), ("name", .vstr "Al")]
    ∧ maskSensitive (.vobj [("token", .vstr "short")])
      = .vobj [("token", .vstr "********")] := by
  refine ⟨?_, ?_, ?_, ?_⟩
  · intro entries k s hmem hsens
    exact ⟨maskSensitiveEntries entries, by rw [maskSensitive],
      mem_maskSensitiveEntries_str k s entries hmem hsens⟩
  · intro entries k v hmem hsens hnv
    exact ⟨maskSensitiveEntries entries, by rw [maskSensitive],
      mem_maskSensitiveEntries_nonstr k v hnv entries hmem hsens⟩
  · simp +decide [maskSensitive, maskSensitiveEntries]
  · simp +decide [maskSensitive, maskSensitiveEntries]

/-- Witness for the amended C7: a long sensitive string, a short sensitive
string, and a sensitive numeric value left untouched. -/
theorem c7_mask_amended_witness :
    (∃ masked, maskSensitive (.vobj [("password", .vstr "abcdefgh12")])
        = .vobj masked ∧ ("password", Val.vstr "abcd...gh12") ∈ masked)
    ∧ (∃ masked, maskSensitive (.vobj [("token", .vstr "short")])
        = .vobj masked ∧ ("token", Val.vstr "********") ∈ masked)
    ∧ (∃ masked, maskSensitive (.vobj [("apiKeyCount", .vnum 5)])
        = .vobj masked ∧ ("apiKeyCount", Val.vnum 5) ∈ masked) :=
  ⟨c7_mask_amended.1 [("password", .vstr "abcdefgh12")] "password" "abcdefgh12"
      (by simp) rfl,
   c7_mask_amended.1 [("token", .vstr "short")] "token" "short"
      (by simp) rfl,
   c7_mask_amended.2.1 [("apiKeyCount", .vnum 5)] "apiKeyCount" (.vnum 5)
      (by simp) rfl (fun s h => by cases h)⟩

/-- Uppercasing a lowercase ASCII letter lands in `[A-Z]`. -/
theorem toUpperA_mem_upper : ∀ c ∈ lowerChars, toUpperA c ∈ upperChars := by decide

/-- Lowercasing undoes uppercasing on `[a-z]`. -/
theorem toLowerA_toUpperA : ∀ c ∈ lowerChars, toLowerA (toUpperA c) = c := by decide

/-- A non-uppercase character is untouched by `camelToSnake`. -/
theorem camelExpand_not_upper (c : Char) (h : c ∉ upperChars) :
    camelExpand c = [c] := by
  simp [camelExpand, h]

/-- An uppercase letter produced from a lowercase one expands back to the
underscore-letter pair. -/
theorem camelExpand_of_lower (c : Char) (h : c ∈ lowerChars) :
    camelExpand (toUpperA c) = ['_', c] := by
  simp [camelExpand, toUpperA_mem_upper c h, toLowerA_toUpperA c h]

/-- On character lists free of uppercase ASCII letters, `camelToSnake`
inverts `snakeToCamel`: the only uppercase letters of the camelized list are
the conversions of `_x` pairs, and each expands back. -/
theorem camel_snake_roundtripL :
    ∀ l : List Char, (∀ c ∈ l, c ∉ upperChars) →
    camelToSnakeL (snakeToCamelL l) = l := by
  intro l
  induction l using snakeToCamelL.induct with
  | case1 c rest hlow ih =>
    intro h
    rw [snakeToCamelL, if_pos hlow]
    show camelExpand (toUpperA c) ++ camelToSnakeL (snakeToCamelL rest)
      = '_' :: c :: rest
    rw [camelExpand_of_lower c hlow, ih (fun c' hc' => h c' (by simp [hc']))]
    rfl
  | case2 c rest hnotlow ih =>
    intro h
    rw [snakeToCamelL, if_neg hnotlow]
    show camelExpand '_' ++ camelToSnakeL (snakeToCamelL (c :: rest))
      = '_' :: c :: rest
    rw [camelExpand_not_upper '_' (by decide),
      ih (fun c' hc' => h c' (by simp [hc']))]
    rfl
  | case3 c rest hne ih =>
    intro h
    rw [snakeToCamelL]
    show camelExpand c ++ camelToSnakeL (snakeToCamelL rest) = c :: rest
    rw [camelExpand_not_upper c (h c (by simp)),
      ih (fun c' hc' => h c' (by simp [hc']))]
    rfl
    exact hne
  | case4 =>
    intro _
    rfl

/-- A character admitted by the amended key restriction: lowercase ASCII
letter, digit, or underscore. -/
def goodKeyChar (c : Char) : Bool :=
  c ∈ lowerChars || c ∈ digitChars || c = '_'

/-- No two consecutive underscores. -/
def noConsecUnderscore : List Char → Bool
  | '_' :: '_' :: _ => false
  | _ :: rest => noConsecUnderscore rest
  | [] => true

/-- The amended key restriction: lowercase ASCII letters/digits/underscore,
no leading or trailing underscore, no consecutive underscores. -/
def goodKey (s : String) : Bool :=
  s.toList.all goodKeyChar && noConsecUnderscore s.toList
    && !(s.toList.head? == some '_') && !(s.toList.getLast? == some '_')

/-- Admitted key characters are never uppercase ASCII letters. -/
theorem goodKeyChar_not_upper : ∀ c, goodKeyChar c = true → c ∉ upperChars := by
  have hlow : ∀ c ∈ lowerChars, c ∉ upperChars := by decide
  have hdig : ∀ c ∈ digitChars, c ∉ upperChars := by decide
  have hund : ('_' : Char) ∉ upperChars := by decide
  intro c hg
  simp only [goodKeyChar, Bool.or_eq_true, decide_eq_true_eq] at hg
  rcases hg with (h | h) | h
  · exact hlow c h
  · exact hdig c h
  · exact h ▸ hund

/-- String-level roundtrip on keys satisfying the amended restriction. -/
theorem camelToSnake_snakeToCamel (s : String) (h : goodKey s = true) :
    camelToSnake (snakeToCamel s) = s := by
  have hall : s.toList.all goodKeyChar = true := by
    simp only [goodKey, Bool.and_eq_true] at h
    exact h.1.1.1
  have hnu : ∀ c ∈ s.toList, c ∉ upperChars := fun c hc =>
    goodKeyChar_not_upper c (List.all_eq_true.mp hall c hc)
  show String.mk (camelToSnakeL (snakeToCamelL s.toList)) = s
  rw [camel_snake_roundtripL s.toList hnu]
  cases s
  rfl

/-- `snakeToCamel` is injective on keys satisfying the amended restriction. -/
theorem snakeToCamel_inj_on_good (k1 k2 : String) (h1 : goodKey k1 = true)
    (h2 : goodKey k2 = true) (he : snakeToCamel k1 = snakeToCamel k2) :
    k1 = k2 := by
  have := congrArg camelToSnake he
  rwa [camelToSnake_snakeToCamel k1 h1, camelToSnake_snakeToCamel k2 h2] at this

mutual

/-- The amended wellformedness of a value tree: every object has wellformed,
pairwise-distinct keys and wellformed values; arrays are wellformed
element-wise; leaves always are. -/
def goodVal : Val → Bool
  | .vobj entries => goodPairs entries && decide ((entries.map Prod.fst).Nodup)
  | .varr items => goodList items
  | _ => true

/-- Wellformedness of array items. -/
def goodList : List Val → Bool
  | [] => true
  | v :: rest => goodVal v && goodList rest

/-- Wellformedness of object entries. -/
def goodPairs : List (String × Val) → Bool
  | [] => true
  | (k, v) :: rest => goodKey k && goodVal v && goodPairs rest

end

/-- Replaying assignments whose keys are fresh for the accumulator and
pairwise distinct just appends the entries. -/
theorem objFromEntries_aux :
    ∀ (l acc : List (String × Val)),
    (∀ p ∈ l, p.1 ∉ acc.map Prod.fst) → (l.map Prod.fst).Nodup →
    List.foldl (fun acc p => objAssign acc p.1 p.2) acc l = acc ++ l := by
  intro l
  induction l with
  | nil => intro acc _ _; simp
  | cons p rest ih =>
    intro acc hdisj hnd
    obtain ⟨k, v⟩ := p
    have hknot : k ∉ acc.map Prod.fst := hdisj (k, v) (by simp)
    have hassign : objAssign acc k v = acc ++ [(k, v)] := by
      rw [objAssign, if_neg ?_]
      rw [List.any_eq_true]
      rintro ⟨q, hq, hqk⟩
      simp only [decide_eq_true_eq] at hqk
      exact hknot (hqk ▸ List.mem_map_of_mem Prod.fst hq)
    have hndrest : (rest.map Prod.fst).Nodup := by
      simp only [List.map_cons, List.nodup_cons] at hnd
      exact hnd.2
    have hknotrest : k ∉ rest.map Prod.fst := by
      simp only [List.map_cons, List.nodup_cons] at hnd
      exact hnd.1
    rw [List.foldl_cons]
    show List.foldl (fun acc p => objAssign acc p.1 p.2) (objAssign acc k v) rest
      = acc ++ (k, v) :: rest
    rw [hassign, ih (acc ++ [(k, v)]) ?_ hndrest]
    · simp
    · intro q hq
      simp only [List.map_append, List.mem_append]
      rintro (hin | hin)
      · exact hdisj q (by simp [hq]) hin
      · simp only [List.map_cons, List.map_nil, List.mem_singleton] at hin
        exact hknotrest (hin ▸ List.mem_map_of_mem Prod.fst hq)

/-- An entry list with pairwise distinct keys is a fixed point of the
assignment replay. -/
theorem objFromEntries_self (l : List (String × Val))
    (h : (l.map Prod.fst).Nodup) : objFromEntries l = l := by
  rw [objFromEntries]
  rw [objFromEntries_aux l [] (by simp) h]
  simp

/-- The keys of a transformed entry list are the transformed keys. -/
theorem transformKeysPairs_map_fst (tr : String → String) :
    ∀ l : List (String × Val),
    (transformKeysPairs tr l).map Prod.fst = l.map (fun p => tr p.1) := by
  intro l
  induction l with
  | nil => simp [transformKeysPairs]
  | cons p rest ih =>
    obtain ⟨k, v⟩ := p
    cases v <;> simp [transformKeysPairs, ih]

/-- Every key of a wellformed entry list satisfies the key restriction. -/
theorem goodPairs_keys :
    ∀ l : List (String × Val), goodPairs l = true →
    ∀ k ∈ l.map Prod.fst, goodKey k = true := by
  intro l
  induction l with
  | nil => intro _ k hk; cases hk
  | cons p rest ih =>
    obtain ⟨k0, v0⟩ := p
    intro h k hk
    simp only [goodPairs, Bool.and_eq_true] at h
    rcases List.mem_cons.mp hk with heq | htail
    · exact heq ▸ h.1.1
    · exact ih h.2 k htail

mutual

/-- Snake-camel roundtrip over whole value trees (mutual part for values). -/
theorem roundtripV : ∀ v : Val, goodVal v = true →
    transformKeysVal camelToSnake (transformKeysVal snakeToCamel v) = v
  | .vundefined, _ => by simp [transformKeysVal]
  | .vnull, _ => by simp [transformKeysVal]
  | .vbool b, _ => by simp [transformKeysVal]
  | .vnum n, _ => by simp [transformKeysVal]
  | .vstr s, _ => by simp [transformKeysVal]
  | .varr items, h => by
      have hl : goodList items = true := by simpa [goodVal] using h
      simp only [transformKeysVal]
      rw [roundtripL items hl]
  | .vobj entries, h => by
      have hp : goodPairs entries = true := by
        simp only [goodVal, Bool.and_eq_true] at h
        exact h.1
      have hnd : (entries.map Prod.fst).Nodup := by
        simp only [goodVal, Bool.and_eq_true, decide_eq_true_eq] at h
        exact h.2
      have hkeys : ∀ k ∈ entries.map Prod.fst, goodKey k = true :=
        goodPairs_keys entries hp
      have nodup1 :
          ((transformKeysPairs snakeToCamel entries).map Prod.fst).Nodup := by
        rw [transformKeysPairs_map_fst]
        have hmm : entries.map (fun p => snakeToCamel p.1)
            = (entries.map Prod.fst).map snakeToCamel := by
          rw [List.map_map]
          rfl
        rw [hmm]
        exact hnd.map_on (fun a ha b hb he =>
          snakeToCamel_inj_on_good a b (hkeys a ha) (hkeys b hb) he)
      have inner : transformKeysPairs camelToSnake
          (transformKeysPairs snakeToCamel entries) = entries :=
        roundtripP entries hp
      simp only [transformKeysVal]
      rw [objFromEntries_self _ nodup1, inner, objFromEntries_self _ hnd]

/-- Snake-camel roundtrip, mutual part for array items. -/
theorem roundtripL : ∀ l : List Val, goodList l = true →
    transformKeysList camelToSnake (transformKeysList snakeToCamel l) = l
  | [], _ => by simp [transformKeysList]
  | v :: rest, h => by
      have hv : goodVal v = true := by
        simp only [goodList, Bool.and_eq_true] at h
        exact h.1
      have hr : goodList rest = true := by
        simp only [goodList, Bool.and_eq_true] at h
        exact h.2
      cases v with
      | vobj es =>
        have hmid : transformKeysVal snakeToCamel (.vobj es)
            = .vobj (objFromEntries (transformKeysPairs snakeToCamel es)) := by
          simp [transformKeysVal]
        simp only [transformKeysList]
        rw [← hmid, roundtripV (.vobj es) hv, roundtripL rest hr]
      | varr its =>
        have hmid : transformKeysVal snakeToCamel (.varr its)
            = .varr (transformKeysList snakeToCamel its) := by
          simp [transformKeysVal]
        simp only [transformKeysList]
        rw [← hmid, roundtripV (.varr its) hv, roundtripL rest hr]
      | vundefined =>
        simp only [transformKeysList]
        rw [roundtripL rest hr]
      | vnull =>
        simp only [transformKeysList]
        rw [roundtripL rest hr]
      | vbool b =>
        simp only [transformKeysList]
        rw [roundtripL rest hr]
      | vnum n =>
        simp only [transformKeysList]
        rw [roundtripL rest hr]
      | vstr s =>
        simp only [transformKeysList]
        rw [roundtripL rest hr]

/-- Snake-camel roundtrip, mutual part for object entries. -/
theorem roundtripP : ∀ l : List (String × Val), goodPairs l = true →
    transformKeysPairs camelToSnake (transformKeysPairs snakeToCamel l) = l
  | [], _ => by simp [transformKeysPairs]
  | (k, v) :: rest, h => by
      have hk : goodKey k = true := by
        simp only [goodPairs, Bool.and_eq_true] at h
        exact h.1.1
      have hv : goodVal v = true := by
        simp only [goodPairs, Bool.and_eq_true] at h
        exact h.1.2
      have hr : goodPairs rest = true := by
        simp only [goodPairs, Bool.and_eq_true] at h
        exact h.2
      cases v with
      | vobj es =>
        have hmid : transformKeysVal snakeToCamel (.vobj es)
            = .vobj (objFromEntries (transformKeysPairs snakeToCamel es)) := by
          simp [transformKeysVal]
        simp only [transformKeysPairs]
        rw [← hmid, roundtripV (.vobj es) hv,
          camelToSnake_snakeToCamel k hk, roundtripP rest hr]
      | varr its =>
        have hmid : transformKeysVal snakeToCamel (.varr its)
            = .varr (transformKeysList snakeToCamel its) := by
          simp [transformKeysVal]
        simp only [transformKeysPairs]
        rw [← hmid, roundtripV (.varr its) hv,
          camelToSnake_snakeToCamel k hk, roundtripP rest hr]
      | vundefined =>
        simp only [transformKeysPairs]
        rw [camelToSnake_snakeToCamel k hk, roundtripP rest hr]
      | vnull =>
        simp only [transformKeysPairs]
        rw [camelToSnake_snakeToCamel k hk, roundtripP rest hr]
      | vbool b =>
        simp only [transformKeysPairs]
        rw [camelToSnake_snakeToCamel k hk, roundtripP rest hr]
      | vnum n =>
        simp only [transformKeysPairs]
        rw [camelToSnake_snakeToCamel k hk, roundtripP rest hr]
      | vstr s =>
        simp only [transformKeysPairs]
        rw [camelToSnake_snakeToCamel k hk, roundtripP rest hr]

end

/-- Counterexample to claim C8 as stated.  The claim's key restriction,
"ASCII letters/digits/underscore with no leading or trailing underscores and
no consecutive underscores", admits the key `userId`, but
`snakeToCamel("userId")` is `"userId"` and `camelToSnake("userId")` is
`"user_id"`, so the roundtrip returns a different object. -/
theorem c8_roundtrip_counterexample :
    transformToSnakeCase (transformToCamelCase (.vobj [("userId", .vstr "1")]))
      = .vobj [("user_id", .vstr "1")]
    ∧ transformToSnakeCase (transformToCamelCase (.vobj [("userId", .vstr "1")]))
      ≠ .vobj [("userId", .vstr "1")] := by
  have he : transformToSnakeCase
      (transformToCamelCase (.vobj [("userId", .vstr "1")]))
      = .vobj [("user_id", .vstr "1")] := by
    simp +decide [transformToCamelCase, transformToSnakeCase, transformKeysVal,
      transformKeysPairs, objFromEntries, objAssign, snakeToCamel,
      snakeToCamelL, camelToSnake, camelToSnakeL, camelExpand]
  refine ⟨he, ?_⟩
  rw [he]
  decide

/-- Claim C8 as amended: `transformToSnakeCase` and `transformToCamelCase`
are exact inverses (snake-after-camel direction) for objects whose keys,
recursively through nested mappings and arrays, use *lowercase* ASCII
letters/digits/underscore with no leading or trailing underscores and no
consecutive underscores (and, as JavaScript objects guarantee, pairwise
distinct keys); in particular the camelization of
`\x7buser_id:"1", nested:\x7bfirst_name:"A"\x7d\x7d` is
`\x7buserId:"1", nested:\x7bfirstName:"A"\x7d\x7d` and snake-casing that
result restores the original. -/
theorem c8_roundtrip_amended :
    (∀ v : Val, goodVal v = true →
      transformToSnakeCase (transformToCamelCase v) = v)
    ∧ transformToCamelCase (.vobj [("user_id", .vstr "1"),
        ("nested", .vobj [("first_name", .vstr "A")])])
      = .vobj [("userId", .vstr "1"), ("nested", .vobj [("firstName", .vstr "A")])]
    ∧ transformToSnakeCase (.vobj [("userId", .vstr "1"),
        ("nested", .vobj [("firstName", .vstr "A")])])
      = .vobj [("user_id", .vstr "1"),
          ("nested", .vobj [("first_name", .vstr "A")])] := by
  refine ⟨?_, ?_, ?_⟩
  · intro v h
    exact roundtripV v h
  · simp +decide [transformToCamelCase, transformKeysVal, transformKeysPairs,
      objFromEntries, objAssign, snakeToCamel, snakeToCamelL]
  · simp +decide [transformToSnakeCase, transformKeysVal, transformKeysPairs,
      objFromEntries, objAssign, camelToSnake, camelToSnakeL, camelExpand]

/-- Witness for the amended C8 at the spec's nested example object. -/
theorem c8_roundtrip_amended_witness :
    transformToSnakeCase (transformToCamelCase (.vobj [("user_id", .vstr "1"),
        ("nested", .vobj [("first_name", .vstr "A")])]))
      = .vobj [("user_id", .vstr "1"),
          ("nested", .vobj [("first_name", .vstr "A")])] :=
  c8_roundtrip_amended.1
    (.vobj [("user_id", .vstr "1"), ("nested", .vobj [("first_name", .vstr "A")])])
    (by simp +decide [goodVal, goodPairs])
